import Mathlib

/-!
Verification development for the Ghurfati repository.

The repository ships a Next.js landing page (`frontend/app/page.tsx`,
`frontend/app/layout.tsx`) and a README describing a Style-to-Product
Matching Pipeline that is not present in the source tree.  The frontend
components are embedded below directly from their TypeScript source; the
pipeline (orchestrator, matching stage, aggregator) is modelled from the
specification text, as the corresponding code is missing from the
repository.
-/

/-! ### Frontend: shallow embedding of the React components -/

/-- A rendered React element tree: either a tagged element with attributes
and children, or a text node.  JSX from the source files is translated
node by node into this type. -/
inductive ReactNode
  | element (tag : String) (attrs : List (String × String)) (children : List ReactNode)
  | text (s : String)

/-- Embedded from `frontend/app/page.tsx`: `const HomePage = () => ...`.
A nullary arrow function returning a fixed JSX tree; the `Sparkles`
lucide-react icon is kept as an opaque element node. -/
def HomePage : Unit → ReactNode := fun _ =>
  .element "main" [("className", "flex min-h-screen items-center justify-center px-6")]
    [.element "section"
        [("className", "max-w-2xl space-y-6 rounded-3xl border border-slate-200 bg-white p-10 shadow-sm")]
      [.element "div" [("className", "flex items-center gap-3 text-slate-900")]
        [.element "Sparkles" [("className", "h-7 w-7 text-indigo-500")] [],
         .element "h1" [("className", "text-3xl font-semibold")] [.text "Ghurfati"]],
       .element "p" [("className", "text-lg text-slate-600")]
        [.text "Upload a room photo, apply AI styling, and get IKEA-ready product matches in minutes."],
       .element "div" [("className", "flex flex-wrap gap-3 text-sm text-slate-500")]
        [.element "span" [("className", "rounded-full bg-slate-100 px-3 py-1")] [.text "Next.js 14"],
         .element "span" [("className", "rounded-full bg-slate-100 px-3 py-1")] [.text "FastAPI"],
         .element "span" [("className", "rounded-full bg-slate-100 px-3 py-1")]
           [.text "Supabase + pgvector"]]]]

/-- Embedded from `frontend/app/layout.tsx`: the exported `metadata` object. -/
structure SiteMetadata where
  title : String
  description : String

/-- Embedded from `frontend/app/layout.tsx`:
`export const metadata = ...`. -/
def metadata : SiteMetadata :=
  { title := "Ghurfati"
    description := "AI Interior Design with affiliate product matching" }

/-- Embedded from `frontend/app/layout.tsx`:
`const RootLayout = (\x7b children \x7d) => <html lang="en"><body ...>\x7bchildren\x7d</body></html>`. -/
def RootLayout (children : ReactNode) : ReactNode :=
  .element "html" [("lang", "en")]
    [.element "body" [("className", "min-h-screen antialiased")] [children]]

mutual

/-- All text-node contents of a React tree, in document order. -/
def texts : ReactNode → List String
  | .text s => [s]
  | .element _ _ children => textsList children

/-- All text-node contents of a list of React trees, in document order. -/
def textsList : List ReactNode → List String
  | [] => []
  | c :: cs => texts c ++ textsList cs

end

/-- The tag of an element node (text nodes have no tag). -/
def tagOf : ReactNode → Option String
  | .element t _ _ => some t
  | .text _ => none

/-- The attribute list of an element node. -/
def attrsOf : ReactNode → List (String × String)
  | .element _ a _ => a
  | .text _ => []

/-- The child list of an element node. -/
def childrenOf : ReactNode → List ReactNode
  | .element _ _ cs => cs
  | .text _ => []

/-- The children of the single wrapper child of a node: for
`RootLayout` output this is the content of the `body` element. -/
def bodyChildren (n : ReactNode) : List ReactNode :=
  match childrenOf n with
  | [b] => childrenOf b
  | _ => []

/-! ### Claims C8, C9, C10: the frontend components -/

/-- C8: `HomePage` is a nullary pure function: any two invocations return
the identical element tree, whose text nodes include the fixed heading
"Ghurfati" and the fixed tagline paragraph.  The embedding is a total
Lean function, so no I/O can occur. -/
theorem homePage_pure_fixed :
    (∀ u v : Unit, HomePage u = HomePage v) ∧
    texts (HomePage ()) =
      ["Ghurfati",
       "Upload a room photo, apply AI styling, and get IKEA-ready product matches in minutes.",
       "Next.js 14", "FastAPI", "Supabase + pgvector"] ∧
    tagOf (HomePage ()) = some "main" := by
  refine ⟨fun u v => rfl, ?_, rfl⟩
  simp [HomePage, texts, textsList]

/-- C9: `RootLayout` returns an `html` element with `lang` equal to `"en"`
whose `body` contains exactly the given children, unchanged; in
particular the component is injective in its children. -/
theorem rootLayout_children_passthrough :
    (∀ c : ReactNode,
      tagOf (RootLayout c) = some "html" ∧
      attrsOf (RootLayout c) = [("lang", "en")] ∧
      bodyChildren (RootLayout c) = [c]) ∧
    (∀ c d : ReactNode, RootLayout c = RootLayout d → c = d) := by
  refine ⟨fun c => ⟨rfl, rfl, rfl⟩, fun c d h => ?_⟩
  simpa [RootLayout] using h

/-- C9 witness: the pass-through and injectivity instantiated at a
concrete child node. -/
theorem rootLayout_children_passthrough_check :
    ReactNode.text "hello" = ReactNode.text "hello" ∧
    bodyChildren (RootLayout (.text "hello")) = [.text "hello"] :=
  ⟨rootLayout_children_passthrough.2 (.text "hello") (.text "hello") rfl,
   (rootLayout_children_passthrough.1 (.text "hello")).2.2⟩

/-- C10: the exported `metadata` constant has the fixed title and
description from `layout.tsx`; being a plain Lean constant, nothing in
the development can mutate it. -/
theorem metadata_fixed :
    metadata.title = "Ghurfati" ∧
    metadata.description = "AI Interior Design with affiliate product matching" :=
  ⟨rfl, rfl⟩

/-! ### Matching Stage

Modelled from the spec: the Matching Stage code is absent from the
repository; `matchStage` below follows spec section 4.4 — query the
vector index for `k_query > k` nearest neighbours, drop out-of-stock
products, apply the category-hint soft filter (down-weight by a factor
of one half, represented exactly on a doubled integer score scale),
rank by filtered score with ties broken by lexicographically lower
product identifier, and truncate to the top `k`. -/

/-- Lexicographic comparison of character lists, by the character order. -/
def lexLeChars : List Char → List Char → Bool
  | [], _ => true
  | _ :: _, [] => false
  | a :: as, b :: bs =>
    if a < b then true
    else if b < a then false
    else lexLeChars as bs

/-- Lexicographic comparison of product identifiers. -/
def lexLe (a b : String) : Bool := lexLeChars a.data b.data

theorem lexLeChars_total : ∀ a b : List Char, lexLeChars a b = true ∨ lexLeChars b a = true
  | [], _ => .inl rfl
  | _ :: _, [] => .inr rfl
  | x :: xs, y :: ys => by
    simp only [lexLeChars]
    rcases lt_trichotomy x y with h | h | h
    · simp [h]
    · subst h
      simp only [lt_irrefl, if_neg (lt_irrefl x), if_false]
      exact lexLeChars_total xs ys
    · simp [h, asymm h]

theorem lexLeChars_trans : ∀ a b c : List Char, lexLeChars a b = true →
    lexLeChars b c = true → lexLeChars a c = true
  | [], _, _, _, _ => rfl
  | _ :: _, [], _, h, _ => by simp [lexLeChars] at h
  | _ :: _, _ :: _, [], _, h => by simp [lexLeChars] at h
  | x :: xs, y :: ys, z :: zs, h1, h2 => by
    simp only [lexLeChars] at h1 h2 ⊢
    rcases lt_trichotomy x y with hxy | hxy | hxy
    · rcases lt_trichotomy y z with hyz | hyz | hyz
      · simp [lt_trans hxy hyz]
      · subst hyz; simp [hxy]
      · simp [asymm hyz, hyz] at h2
    · subst hxy
      rcases lt_trichotomy x z with hxz | hxz | hxz
      · simp [hxz]
      · subst hxz
        simp only [lt_irrefl, if_neg (lt_irrefl x), if_false] at h1 h2 ⊢
        exact lexLeChars_trans xs ys zs h1 h2
      · simp [asymm hxz, hxz] at h2
    · simp [asymm hxy, hxy] at h1

/-- A catalog product as returned by the vector index: identifier,
category, and availability. -/
structure Product where
  productId : String
  category : String
  inStock : Bool
deriving DecidableEq

/-- One nearest-neighbour hit from the vector index: a product together
with its similarity score (an exact integer scale standing for the
cosine similarity). -/
structure IndexHit where
  product : Product
  similarity : Int
deriving DecidableEq

/-- A re-ranked match candidate: a product with its filtered score. -/
structure ScoredCand where
  product : Product
  score : Int
deriving DecidableEq

/-- A furniture region produced by Extraction: identifier, category
hint, and embedding vector. -/
structure Region where
  regionId : Nat
  categoryHint : Option String
  embedding : List Int
deriving DecidableEq

/-- Modelled from the spec: the Vector Index Client is an external
collaborator; it is abstracted as a function from an embedding and a
requested neighbour count to a ranked hit list. -/
def VectorIndex : Type := List Int → Nat → List IndexHit

/-- The over-query size `k_query`, always strictly larger than `k`. -/
def kQueryOf (k : Nat) : Nat := 2 * k + 10

/-- The category-hint soft filter on a doubled score scale: a hit
compatible with the hint (or an absent hint) keeps its full score
(doubled), an incompatible hit is down-weighted by a factor of one half
(kept single). -/
def adjustedScore (hint : Option String) (h : IndexHit) : Int :=
  match hint with
  | none => 2 * h.similarity
  | some c => if h.product.category = c then 2 * h.similarity else h.similarity

/-- The ranking order on candidates: strictly higher filtered score
first, ties broken by lexicographically lower product identifier. -/
def candRel (a b : ScoredCand) : Prop :=
  b.score < a.score ∨
    (b.score = a.score ∧ lexLe a.product.productId b.product.productId = true)

instance candRel_decidable : DecidableRel candRel := fun a b => by
  unfold candRel; infer_instance

instance candRel_total : IsTotal ScoredCand candRel := by
  constructor
  intro a b
  unfold candRel
  rcases lt_trichotomy a.score b.score with h | h | h
  · exact .inr (.inl h)
  · rcases lexLeChars_total a.product.productId.data b.product.productId.data with hid | hid
    · exact .inl (.inr ⟨h.symm, hid⟩)
    · exact .inr (.inr ⟨h, hid⟩)
  · exact .inl (.inl h)

instance candRel_trans : IsTrans ScoredCand candRel := by
  constructor
  intro a b c h1 h2
  unfold candRel at h1 h2 ⊢
  rcases h1 with h1 | ⟨h1e, h1l⟩
  · rcases h2 with h2 | ⟨h2e, _⟩
    · exact .inl (lt_trans h2 h1)
    · exact .inl (h2e ▸ h1)
  · rcases h2 with h2 | ⟨h2e, h2l⟩
    · exact .inl (h1e ▸ h2)
    · exact .inr ⟨h2e.trans h1e, lexLeChars_trans _ _ _ h1l h2l⟩

/-- The deterministic re-ranking filter pipeline of spec section 4.4:
drop out-of-stock hits, apply the category-hint soft filter, and sort by
filtered score with the identifier tie-break. -/
def rerank (hint : Option String) (hits : List IndexHit) : List ScoredCand :=
  List.insertionSort candRel
    ((hits.filter (fun h => h.product.inStock)).map
      (fun h => { product := h.product, score := adjustedScore hint h }))

/-- Modelled from the spec: `match(region, k)` of spec section 4.4 —
over-query the index with `k_query`, re-rank, truncate to the top `k`. -/
def matchStage (idx : VectorIndex) (r : Region) (k : Nat) : List ScoredCand :=
  (rerank r.categoryHint (idx r.embedding (kQueryOf k))).take k

theorem pairwise_matchStage (idx : VectorIndex) (r : Region) (k : Nat) :
    List.Pairwise candRel (matchStage idx r k) := by
  unfold matchStage rerank
  exact List.Pairwise.sublist (List.take_sublist k _) (List.sorted_insertionSort candRel _)

/-- A demonstration region with a sofa category hint. -/
def demoRegion : Region :=
  { regionId := 0, categoryHint := some "sofa", embedding := [1, 0, 0] }

/-- A demonstration hit list: two in-stock sofas tied on similarity, an
out-of-stock product with the best raw similarity, and an in-stock lamp. -/
def demoHits : List IndexHit :=
  [{ product := { productId := "p9", category := "sofa", inStock := true }, similarity := 91 },
   { product := { productId := "p2", category := "sofa", inStock := true }, similarity := 91 },
   { product := { productId := "p5", category := "sofa", inStock := false }, similarity := 95 },
   { product := { productId := "p7", category := "lamp", inStock := true }, similarity := 88 }]

/-- A demonstration vector index returning `demoHits` for every query. -/
def demoIndex : VectorIndex := fun _ _ => demoHits

/-! ### Claims C3, C5: the Matching Stage contract -/

/-- C3: for a fixed region and index state, `matchStage` is
deterministic — repeated invocations return the same ranked sequence —
and when two returned candidates carry identical filtered similarity
scores, the one with the lexicographically lower product identifier is
ranked first. -/
theorem matchStage_deterministic_tiebreak (idx : VectorIndex) (r : Region) (k : Nat) :
    matchStage idx r k = matchStage idx r k ∧
    ∀ (i j : Nat) (hi : i < (matchStage idx r k).length)
      (hj : j < (matchStage idx r k).length), i < j →
      ((matchStage idx r k).get ⟨i, hi⟩).score = ((matchStage idx r k).get ⟨j, hj⟩).score →
      lexLe ((matchStage idx r k).get ⟨i, hi⟩).product.productId
        ((matchStage idx r k).get ⟨j, hj⟩).product.productId = true := by
  refine ⟨rfl, fun i j hi hj hij hsc => ?_⟩
  have hp := (List.pairwise_iff_getElem.mp (pairwise_matchStage idx r k)) i j hi hj hij
  simp only [List.get_eq_getElem] at hsc ⊢
  rcases hp with hlt | ⟨_, hle⟩
  · rw [hsc] at hlt
    exact absurd hlt (lt_irrefl _)
  · exact hle

/-- C3 witness: on the demonstration index the two tied sofas come back
with "p2" ranked ahead of "p9". -/
theorem matchStage_deterministic_tiebreak_check :
    (0 : Nat) < 1 ∧
    ((matchStage demoIndex demoRegion 2).get ⟨0, by decide⟩).score =
      ((matchStage demoIndex demoRegion 2).get ⟨1, by decide⟩).score ∧
    lexLe ((matchStage demoIndex demoRegion 2).get ⟨0, by decide⟩).product.productId
      ((matchStage demoIndex demoRegion 2).get ⟨1, by decide⟩).product.productId = true :=
  ⟨by decide, by decide,
   (matchStage_deterministic_tiebreak demoIndex demoRegion 2).2 0 1
     (by decide) (by decide) (by decide) (by decide)⟩

/-- C5: `matchStage idx r k` returns at most `k` candidates, over-queries
the index with `k_query > k` neighbours, keeps only in-stock products,
scores every returned candidate by the category-hint soft filter applied
to a hit of that query, and equals the top-`k` truncation of the
re-ranked query result. -/
theorem matchStage_contract (idx : VectorIndex) (r : Region) (k : Nat) :
    (matchStage idx r k).length ≤ k ∧
    k < kQueryOf k ∧
    (∀ c, c ∈ matchStage idx r k → c.product.inStock = true) ∧
    (∀ c, c ∈ matchStage idx r k →
      ∃ h, h ∈ idx r.embedding (kQueryOf k) ∧ h.product.inStock = true ∧
        c = { product := h.product, score := adjustedScore r.categoryHint h }) ∧
    matchStage idx r k = (rerank r.categoryHint (idx r.embedding (kQueryOf k))).take k := by
  have hsrc : ∀ c, c ∈ matchStage idx r k →
      ∃ h, h ∈ idx r.embedding (kQueryOf k) ∧ h.product.inStock = true ∧
        c = { product := h.product, score := adjustedScore r.categoryHint h } := by
    intro c hc
    unfold matchStage rerank at hc
    have hc2 := (List.perm_insertionSort candRel _).mem_iff.mp (List.take_subset _ _ hc)
    rcases List.mem_map.mp hc2 with ⟨h, hmem, hceq⟩
    rcases List.mem_filter.mp hmem with ⟨hq, hstock⟩
    exact ⟨h, hq, hstock, hceq.symm⟩
  refine ⟨?_, by unfold kQueryOf; omega, ?_, hsrc, rfl⟩
  · unfold matchStage
    simp only [List.length_take]
    exact min_le_left k _
  · intro c hc
    rcases hsrc c hc with ⟨h, _, hstock, hceq⟩
    rw [hceq]
    exact hstock

/-- C5 witness: on the demonstration inputs the result has at most two
entries, contains the tied sofa "p2" with its doubled score, and that
entry is in stock. -/
theorem matchStage_contract_check :
    (matchStage demoIndex demoRegion 2).length ≤ 2 ∧
    ({ product := { productId := "p2", category := "sofa", inStock := true },
        score := 182 } : ScoredCand) ∈ matchStage demoIndex demoRegion 2 ∧
    ({ product := { productId := "p2", category := "sofa", inStock := true },
        score := 182 } : ScoredCand).product.inStock = true :=
  ⟨(matchStage_contract demoIndex demoRegion 2).1, by decide,
   (matchStage_contract demoIndex demoRegion 2).2.2.1 _ (by decide)⟩

/-! ### Job Orchestrator: state machine

Modelled from the spec: the Job Orchestrator code is absent from the
repository; the state machine below follows spec section 4.1 — `Queued →
Generating → Extracting → Matching → Aggregating → Completed`, each
retrying stage able to move to `Failed` once its retry budget is
exhausted, `Completed` and `Failed` terminal. -/

/-- The stage/status of a Job. -/
inductive Status
  | queued
  | generating
  | extracting
  | matching
  | aggregating
  | completed
  | failed
deriving DecidableEq

/-- Position of a status along the pipeline; `failed` sits past every
other status so that failing is a forward transition. -/
def statusRank : Status → Nat
  | .queued => 0
  | .generating => 1
  | .extracting => 2
  | .matching => 3
  | .aggregating => 4
  | .completed => 5
  | .failed => 6

/-- Successor along the happy path; terminal statuses have none. -/
def statusNext : Status → Option Status
  | .queued => some .generating
  | .generating => some .extracting
  | .extracting => some .matching
  | .matching => some .aggregating
  | .aggregating => some .completed
  | .completed => none
  | .failed => none

/-- The orchestrator-visible state of one Job: its status together with
the per-stage retry counters (failed attempts so far). -/
structure JobState where
  status : Status
  genRetries : Nat
  extRetries : Nat
  matRetries : Nat
deriving DecidableEq

/-- The retry counter of the stage a Job currently occupies. -/
def JobState.currentRetries (s : JobState) : Nat :=
  match s.status with
  | .generating => s.genRetries
  | .extracting => s.extRetries
  | .matching => s.matRetries
  | _ => 0

/-- Modelled from the spec: the Job state-machine transition relation,
with retry budget `B` attempts per retrying stage.  A stage retries in
place while failed attempts remain below the budget and moves to
`Failed` only once the next failure exhausts the budget. -/
inductive JobStep (B : Nat) : JobState → JobState → Prop
  | startGen (g e m : Nat) :
      JobStep B ⟨.queued, g, e, m⟩ ⟨.generating, g, e, m⟩
  | retryGen (g e m : Nat) (h : g + 1 < B) :
      JobStep B ⟨.generating, g, e, m⟩ ⟨.generating, g + 1, e, m⟩
  | failGen (g e m : Nat) (h : B ≤ g + 1) :
      JobStep B ⟨.generating, g, e, m⟩ ⟨.failed, g, e, m⟩
  | finishGen (g e m : Nat) :
      JobStep B ⟨.generating, g, e, m⟩ ⟨.extracting, g, e, m⟩
  | retryExt (g e m : Nat) (h : e + 1 < B) :
      JobStep B ⟨.extracting, g, e, m⟩ ⟨.extracting, g, e + 1, m⟩
  | failExt (g e m : Nat) (h : B ≤ e + 1) :
      JobStep B ⟨.extracting, g, e, m⟩ ⟨.failed, g, e, m⟩
  | finishExt (g e m : Nat) :
      JobStep B ⟨.extracting, g, e, m⟩ ⟨.matching, g, e, m⟩
  | retryMat (g e m : Nat) (h : m + 1 < B) :
      JobStep B ⟨.matching, g, e, m⟩ ⟨.matching, g, e, m + 1⟩
  | failMat (g e m : Nat) (h : B ≤ m + 1) :
      JobStep B ⟨.matching, g, e, m⟩ ⟨.failed, g, e, m⟩
  | finishMat (g e m : Nat) :
      JobStep B ⟨.matching, g, e, m⟩ ⟨.aggregating, g, e, m⟩
  | finishAgg (g e m : Nat) :
      JobStep B ⟨.aggregating, g, e, m⟩ ⟨.completed, g, e, m⟩

/-! ### Claim C1: the Job state machine -/

/-- C1: every transition of the Job state machine either retries the
same stage, advances along `Queued → Generating → Extracting → Matching
→ Aggregating → Completed`, or moves to `Failed`; a transition into
`Failed` happens only when the current stage's retry budget is
exhausted; no transition leaves `Completed` or `Failed`; a Job occupies
exactly one stage at a time; and transitions are monotonic — the stage
rank never decreases, and an unchanged rank means the same stage was
retried. -/
theorem jobStep_state_machine (B : Nat) :
    (∀ s t : JobState, JobStep B s t →
      t.status = s.status ∨ statusNext s.status = some t.status ∨ t.status = .failed) ∧
    (∀ s t : JobState, JobStep B s t → t.status = .failed → B ≤ s.currentRetries + 1) ∧
    (∀ s t : JobState, JobStep B s t → s.status ≠ .completed ∧ s.status ≠ .failed) ∧
    (∀ s : JobState, ∀ a b : Status, s.status = a → s.status = b → a = b) ∧
    (∀ s t : JobState, JobStep B s t →
      statusRank s.status ≤ statusRank t.status ∧
        (statusRank t.status = statusRank s.status → t.status = s.status)) := by
  refine ⟨fun s t h => ?_, fun s t h hf => ?_, fun s t h => ?_,
    fun s a b ha hb => ha ▸ hb, fun s t h => ?_⟩
  · cases h <;> simp [statusNext]
  · cases h <;> first
      | (simp [JobState.currentRetries]; assumption)
      | simp_all [JobState.currentRetries]
  · cases h <;> simp
  · cases h <;> simp [statusRank]

/-- C1 witness: the admission transition out of `Queued` and a failure
transition with an exhausted budget, instantiated concretely. -/
theorem jobStep_state_machine_check :
    ((⟨.generating, 0, 0, 0⟩ : JobState).status = (⟨.queued, 0, 0, 0⟩ : JobState).status ∨
      statusNext (⟨.queued, 0, 0, 0⟩ : JobState).status =
        some (⟨.generating, 0, 0, 0⟩ : JobState).status ∨
      (⟨.generating, 0, 0, 0⟩ : JobState).status = .failed) ∧
    (3 : Nat) ≤ (⟨.generating, 2, 0, 0⟩ : JobState).currentRetries + 1 :=
  ⟨(jobStep_state_machine 3).1 ⟨.queued, 0, 0, 0⟩ ⟨.generating, 0, 0, 0⟩
      (JobStep.startGen 0 0 0),
   (jobStep_state_machine 3).2.1 ⟨.generating, 2, 0, 0⟩ ⟨.failed, 2, 0, 0⟩
      (JobStep.failGen 2 0 0 (by decide)) rfl⟩

/-! ### Job Orchestrator: executable pipeline

Modelled from the spec: the executable orchestration below follows spec
sections 4.1, 4.6, 5 and 7 — per-stage retries over per-attempt stage
oracles, the Matching fan-out whose completion order is an arbitrary
scheduling, the pure Result Aggregator, the admission-controlled
`submit`, and the pure `get_status` lookup. -/

/-- A stage-level failure; stage failures in the modelled pipeline are
transient (validation happens at submission, spec section 7). -/
inductive StageError
  | transient (msg : String)
deriving DecidableEq

/-- Run attempts `attempt, attempt + 1, ...`, with `fuel` further
attempts allowed after the current one; the first success wins and the
last error is reported when the budget runs out. -/
def runAttempts {α : Type} (f : Nat → Except StageError α) (attempt : Nat) :
    Nat → Except StageError α
  | 0 => f attempt
  | fuel + 1 =>
    match f attempt with
    | .ok a => .ok a
    | .error _ => runAttempts f (attempt + 1) fuel

/-- Modelled from the spec: execute one stage with a retry budget of `B`
attempts (spec section 4.1, default 3), retrying transient failures in
place. -/
def runStage {α : Type} (B : Nat) (f : Nat → Except StageError α) : Except StageError α :=
  runAttempts f 0 (B - 1)

/-- A styled image, held as a storage reference (spec section 3). -/
structure StyledImage where
  imageRef : String
deriving DecidableEq

/-- The final response for a Job (spec section 3): the ordered
region/match pairs, the identifiers of unmatched regions, and the
overall job status. -/
structure MatchResult where
  jobId : Nat
  styledImageRef : String
  pairs : List (Region × List ScoredCand)
  unmatched : List Nat
  status : Status
deriving DecidableEq

/-- Modelled from the spec: the Result Aggregator (spec section 4.6), a
pure function building the ordered region/match pairing and the
unmatched-region set (regions whose match sequence is empty). -/
def aggregate (jobId : Nat) (img : StyledImage)
    (pairs : List (Region × List ScoredCand)) : MatchResult :=
  { jobId := jobId
    styledImageRef := img.imageRef
    pairs := pairs
    unmatched := (pairs.filter (fun p => p.2.isEmpty)).map (fun p => p.1.regionId)
    status := .completed }

/-- A persisted Job record (spec section 3). -/
structure JobRecord where
  jobId : Nat
  photoRef : String
  styleName : String
  status : Status
  result : Option MatchResult
  failedStage : Option Status
  errorMsg : Option String
deriving DecidableEq

/-- Per-attempt behaviours of the external capabilities as seen by one
Job: generation, extraction, and per-region matching. -/
structure StageOracles where
  gen : Nat → Except StageError StyledImage
  ext : StyledImage → Nat → Except StageError (List Region)
  mat : Region → Nat → Except StageError (List ScoredCand)

/-- Run the Matching fan-out in extraction order: one retried stage call
per region, failing if any region's retry budget is exhausted. -/
def collectMatches (B : Nat) (mat : Region → Nat → Except StageError (List ScoredCand)) :
    List Region → Except StageError (List (Region × List ScoredCand))
  | [] => .ok []
  | r :: rs =>
    match runStage B (mat r), collectMatches B mat rs with
    | .ok m, .ok rest => .ok ((r, m) :: rest)
    | .error e, _ => .error e
    | _, .error e => .error e

/-- Reassembly by original index (spec section 9): for each extraction
index pick the completed match tagged with it. -/
def reassemble {α : Type} (n : Nat) (tagged : List (Nat × α)) : List α :=
  (List.range n).filterMap
    (fun i => (tagged.find? (fun p => p.1 == i)).map (fun p => p.2))

/-- Modelled from the spec: one Job's sequential pipeline (spec sections
4.1 and 5): Generation, then Extraction, then the Matching fan-out, then
Aggregation.  `sched` models the nondeterministic completion order of
the concurrent per-region matching queries; the Aggregator's reassembly
restores extraction order. -/
def runJob (B : Nat) (oracles : StageOracles)
    (sched : List (Nat × (Region × List ScoredCand)) →
      List (Nat × (Region × List ScoredCand)))
    (jobId : Nat) (photoRef : String) (styleName : String) : JobRecord :=
  match runStage B oracles.gen with
  | .error (.transient msg) =>
    { jobId := jobId, photoRef := photoRef, styleName := styleName, status := .failed,
      result := none, failedStage := some .generating, errorMsg := some msg }
  | .ok img =>
    match runStage B (oracles.ext img) with
    | .error (.transient msg) =>
      { jobId := jobId, photoRef := photoRef, styleName := styleName, status := .failed,
        result := none, failedStage := some .extracting, errorMsg := some msg }
    | .ok regions =>
      match collectMatches B oracles.mat regions with
      | .error (.transient msg) =>
        { jobId := jobId, photoRef := photoRef, styleName := styleName,
          status := .failed, result := none, failedStage := some .matching,
          errorMsg := some msg }
      | .ok pairs =>
        let completed := sched pairs.enum
        let ordered := reassemble pairs.length completed
        { jobId := jobId, photoRef := photoRef, styleName := styleName,
          status := .completed, result := some (aggregate jobId img ordered),
          failedStage := none, errorMsg := none }

/-- Style parameters of a submission (spec section 6). -/
structure StyleParams where
  styleName : String
  intensity : Option Int
  roomHint : Option String
deriving DecidableEq

/-- Submission-time errors (spec section 7). -/
inductive SubmitError
  | capacityError
  | validationError (msg : String)
deriving DecidableEq

/-- Validation of style parameters: a named style and, when present, an
intensity within the unit range (percent scale). -/
def validParams (p : StyleParams) : Bool :=
  !(p.styleName == "") &&
    (match p.intensity with
     | none => true
     | some i => decide (0 ≤ i) && decide (i ≤ 100))

/-- The Orchestrator's admission and bookkeeping state (spec sections
4.1 and 9): configured capacity, FIFO admission queue, persisted Job
records, and the next fresh Job identifier. -/
structure Orchestrator where
  capacity : Nat
  queue : List Nat
  store : List JobRecord
  nextId : Nat
deriving DecidableEq

/-- Modelled from the spec: `submit` with admission control (spec
sections 4.1 and 7): a full admission queue is rejected synchronously
with a capacity error and no Job record is created; malformed style
parameters are rejected with a validation error; otherwise a Queued Job
record is created and enqueued in FIFO order. -/
def submit (o : Orchestrator) (photoRef : String) (params : StyleParams) :
    Except SubmitError Nat × Orchestrator :=
  if o.capacity ≤ o.queue.length then (.error .capacityError, o)
  else if validParams params then
    let j : JobRecord :=
      { jobId := o.nextId, photoRef := photoRef, styleName := params.styleName,
        status := .queued, result := none, failedStage := none, errorMsg := none }
    (.ok o.nextId,
      { o with queue := o.queue ++ [o.nextId], store := o.store ++ [j],
               nextId := o.nextId + 1 })
  else (.error (.validationError "malformed style parameters"), o)

/-- Modelled from the spec: `get_status` (spec section 4.1): a pure
lookup of the Job snapshot in the persisted store; it invokes no stage
and leaves the store untouched. -/
def getStatus (store : List JobRecord) (jobId : Nat) :
    Option JobRecord × List JobRecord :=
  (store.find? (fun j => j.jobId == jobId), store)

/-- `n + 1` successive `get_status` calls against the store each call
leaves behind, returning the last call's answer and store. -/
def getStatusIter (jobId : Nat) : Nat → List JobRecord → Option JobRecord × List JobRecord
  | 0, store => getStatus store jobId
  | n + 1, store => getStatusIter jobId n (getStatus store jobId).2

/-! ### Reassembly restores extraction order -/

theorem find?_tag_eq {α : Type} (l : List α) (tagged : List (Nat × α))
    (hperm : tagged.Perm l.enum) (i : Nat) :
    tagged.find? (fun p => p.1 == i) = (l[i]?).map (fun a => (i, a)) := by
  cases hcase : l[i]? with
  | some a =>
    have hmem : ((i, a) : Nat × α) ∈ tagged :=
      hperm.mem_iff.mpr (List.mem_enum_iff_getElem?.mpr hcase)
    have hsome : (tagged.find? (fun p => p.1 == i)).isSome := by
      rw [List.find?_isSome]
      exact ⟨(i, a), hmem, by simp⟩
    rcases Option.isSome_iff_exists.mp hsome with ⟨x, hx⟩
    have hpx : x.1 = i := by
      have := List.find?_some hx
      simpa using this
    have hxl : x ∈ l.enum := hperm.mem_iff.mp (List.mem_of_find?_eq_some hx)
    have hxval : l[x.1]? = some x.2 := List.mem_enum_iff_getElem?.mp hxl
    rw [hpx, hcase] at hxval
    rw [hx, Option.map_some']
    have : x = (i, a) := by
      rcases x with ⟨x1, x2⟩
      simp only at hpx
      cases hpx
      simpa using hxval.symm
    rw [this]
  | none =>
    rw [Option.map_none']
    rw [List.find?_eq_none]
    intro x hx hpx
    have hxl : x ∈ l.enum := hperm.mem_iff.mp hx
    have hxval : l[x.1]? = some x.2 := List.mem_enum_iff_getElem?.mp hxl
    have hxi : x.1 = i := by simpa using hpx
    rw [hxi, hcase] at hxval
    exact Option.noConfusion hxval

theorem range_filterMap_getElem? {α : Type} (l : List α) :
    (List.range l.length).filterMap (fun i => l[i]?) = l := by
  induction l using List.reverseRecOn with
  | nil => simp
  | append_singleton xs a ih =>
    rw [List.length_append, List.length_singleton, List.range_succ,
      List.filterMap_append]
    have h1 : ∀ i ∈ List.range xs.length,
        ((xs ++ [a])[i]?) = xs[i]? := by
      intro i hi
      exact List.getElem?_append_left (List.mem_range.mp hi)
    rw [List.filterMap_congr h1, ih]
    simp [List.getElem?_concat_length]

theorem reassemble_perm_enum {α : Type} (l : List α) (tagged : List (Nat × α))
    (hperm : tagged.Perm l.enum) : reassemble l.length tagged = l := by
  unfold reassemble
  have h1 : ∀ i ∈ List.range l.length,
      ((tagged.find? (fun p => p.1 == i)).map (fun p => p.2)) = l[i]? := by
    intro i _
    rw [find?_tag_eq l tagged hperm i]
    cases hcase : l[i]? <;> simp
  rw [List.filterMap_congr h1]
  exact range_filterMap_getElem? l

theorem collectMatches_map_fst (B : Nat)
    (mat : Region → Nat → Except StageError (List ScoredCand)) :
    ∀ (regions : List Region) (pairs : List (Region × List ScoredCand)),
      collectMatches B mat regions = .ok pairs → pairs.map (fun p => p.1) = regions
  | [], pairs, h => by
    simp only [collectMatches] at h
    cases h
    rfl
  | r :: rs, pairs, h => by
    simp only [collectMatches] at h
    cases hm : runStage B (mat r) with
    | error e => rw [hm] at h; exact absurd h (by simp)
    | ok m =>
      cases hrest : collectMatches B mat rs with
      | error e => rw [hm, hrest] at h; exact absurd h (by simp)
      | ok rest =>
        rw [hm, hrest] at h
        simp only [Except.ok.injEq] at h
        rw [← h]
        simp only [List.map_cons]
        rw [collectMatches_map_fst B mat rs rest hrest]

theorem getStatusIter_eq (jobId : Nat) :
    ∀ (n : Nat) (store : List JobRecord),
      getStatusIter jobId n store = getStatus store jobId
  | 0, _ => rfl
  | n + 1, store => getStatusIter_eq jobId n store

/-! ### Claims C2, C4, C6, C7: orchestration -/

/-- A second demonstration region, hinted as a lamp. -/
def demoRegionB : Region :=
  { regionId := 1, categoryHint := some "lamp", embedding := [0, 1, 0] }

/-- Demonstration oracles: generation and extraction succeed on the
first attempt, extraction yields two regions, and matching runs the
modelled Matching Stage against the demonstration index. -/
def demoOracles : StageOracles :=
  { gen := fun _ => .ok { imageRef := "styled-1" }
    ext := fun _ _ => .ok [demoRegion, demoRegionB]
    mat := fun r _ => .ok (matchStage demoIndex r 2) }

/-- Demonstration oracles whose extraction detects no regions. -/
def demoOraclesEmpty : StageOracles :=
  { gen := fun _ => .ok { imageRef := "styled-1" }
    ext := fun _ _ => .ok []
    mat := fun r _ => .ok (matchStage demoIndex r 2) }

/-- C2: a Job whose Extraction stage succeeds with zero regions reaches
terminal status `Completed` with an empty match set and an empty
unmatched set — it never becomes `Failed` on account of zero detected
regions — for every scheduling of the (empty) matching fan-out. -/
theorem zero_regions_completes (B : Nat) (oracles : StageOracles)
    (sched : List (Nat × (Region × List ScoredCand)) →
      List (Nat × (Region × List ScoredCand)))
    (hsched : ∀ ps, (sched ps).Perm ps)
    (jobId : Nat) (photoRef styleName : String) (img : StyledImage)
    (hgen : runStage B oracles.gen = .ok img)
    (hext : runStage B (oracles.ext img) = .ok []) :
    (runJob B oracles sched jobId photoRef styleName).status = .completed ∧
    (runJob B oracles sched jobId photoRef styleName).status ≠ .failed ∧
    (runJob B oracles sched jobId photoRef styleName).result =
      some { jobId := jobId, styledImageRef := img.imageRef, pairs := [],
             unmatched := [], status := .completed } := by
  have hmat : collectMatches B oracles.mat [] = .ok [] := rfl
  have hsched0 : sched [] = [] := (hsched []).eq_nil
  simp only [runJob, hgen, hext, hmat]
  simp [List.enum_nil, hsched0, reassemble, aggregate]

/-- C2 witness: the zero-region demonstration Job completes with an
empty match set under the identity scheduling. -/
theorem zero_regions_completes_check :
    (runJob 3 demoOraclesEmpty id 5 "photo-5" "scandinavian").status = .completed ∧
    (runJob 3 demoOraclesEmpty id 5 "photo-5" "scandinavian").status ≠ .failed ∧
    (runJob 3 demoOraclesEmpty id 5 "photo-5" "scandinavian").result =
      some { jobId := 5, styledImageRef := "styled-1", pairs := [], unmatched := [],
             status := .completed } :=
  zero_regions_completes 3 demoOraclesEmpty id (fun ps => List.Perm.refl ps)
    5 "photo-5" "scandinavian" { imageRef := "styled-1" } rfl rfl

/-- C6: whenever the three stages succeed, the final MatchResult pairs
regions with their matches in exactly Extraction's production order, for
every scheduling (completion order) of the concurrent per-region
matching queries. -/
theorem matchResult_extraction_order (B : Nat) (oracles : StageOracles)
    (sched : List (Nat × (Region × List ScoredCand)) →
      List (Nat × (Region × List ScoredCand)))
    (hsched : ∀ ps, (sched ps).Perm ps)
    (jobId : Nat) (photoRef styleName : String) (img : StyledImage)
    (regions : List Region) (pairs : List (Region × List ScoredCand))
    (hgen : runStage B oracles.gen = .ok img)
    (hext : runStage B (oracles.ext img) = .ok regions)
    (hmat : collectMatches B oracles.mat regions = .ok pairs) :
    (runJob B oracles sched jobId photoRef styleName).status = .completed ∧
    (runJob B oracles sched jobId photoRef styleName).result =
      some (aggregate jobId img pairs) ∧
    pairs.map (fun p => p.1) = regions := by
  have hre : reassemble pairs.length (sched pairs.enum) = pairs :=
    reassemble_perm_enum pairs (sched pairs.enum) (hsched pairs.enum)
  refine ⟨?_, ?_, collectMatches_map_fst B oracles.mat regions pairs hmat⟩ <;>
    simp [runJob, hgen, hext, hmat, hre]

/-- C6 witness: the two-region demonstration Job, scheduled with the
matching completions reversed, still pairs the regions in extraction
order. -/
theorem matchResult_extraction_order_check :
    (runJob 3 demoOracles List.reverse 7 "photo-7" "scandinavian").status = .completed ∧
    (runJob 3 demoOracles List.reverse 7 "photo-7" "scandinavian").result =
      some (aggregate 7 { imageRef := "styled-1" }
        [(demoRegion, matchStage demoIndex demoRegion 2),
         (demoRegionB, matchStage demoIndex demoRegionB 2)]) ∧
    ([(demoRegion, matchStage demoIndex demoRegion 2),
      (demoRegionB, matchStage demoIndex demoRegionB 2)].map (fun p => p.1)) =
      [demoRegion, demoRegionB] :=
  matchResult_extraction_order 3 demoOracles List.reverse
    (fun ps => List.reverse_perm ps) 7 "photo-7" "scandinavian"
    { imageRef := "styled-1" } [demoRegion, demoRegionB]
    [(demoRegion, matchStage demoIndex demoRegion 2),
     (demoRegionB, matchStage demoIndex demoRegionB 2)] rfl rfl rfl

/-- C7: `get_status` on a Job found in the store in a terminal state is
idempotent: any number of successive calls returns the identical Job
snapshot, and the store — hence every persisted stage result — is left
untouched, so no stage is re-executed. -/
theorem getStatus_idempotent (store : List JobRecord) (jobId : Nat) (j : JobRecord)
    (hfound : (getStatus store jobId).1 = some j)
    ( _hterm : j.status = .completed ∨ j.status = .failed) :
    (∀ n : Nat, (getStatusIter jobId n store).1 = some j) ∧
    (∀ n : Nat, (getStatusIter jobId n store).2 = store) ∧
    (∀ n m : Nat, (getStatusIter jobId n store).1 = (getStatusIter jobId m store).1) := by
  refine ⟨fun n => ?_, fun n => ?_, fun n m => ?_⟩
  · rw [getStatusIter_eq]
    exact hfound
  · rw [getStatusIter_eq]
    rfl
  · rw [getStatusIter_eq, getStatusIter_eq]

/-- A terminal (completed) demonstration Job record. -/
def demoCompletedJob : JobRecord :=
  { jobId := 5, photoRef := "photo-5", styleName := "scandinavian",
    status := .completed,
    result := some { jobId := 5, styledImageRef := "styled-1", pairs := [],
                     unmatched := [], status := .completed },
    failedStage := none, errorMsg := none }

/-- C7 witness: five consecutive status queries for the completed
demonstration Job return its snapshot and leave the store unchanged. -/
theorem getStatus_idempotent_check :
    (getStatusIter 5 4 [demoCompletedJob]).1 = some demoCompletedJob ∧
    (getStatusIter 5 4 [demoCompletedJob]).2 = [demoCompletedJob] :=
  ⟨(getStatus_idempotent [demoCompletedJob] 5 demoCompletedJob rfl (.inl rfl)).1 4,
   (getStatus_idempotent [demoCompletedJob] 5 demoCompletedJob rfl (.inl rfl)).2.1 4⟩

/-- C4: a submission arriving when the admission queue is at configured
capacity fails synchronously with the capacity error, and the
Orchestrator state — in particular the Job store and the queue — is
unchanged: no Job record is created for the rejected submission. -/
theorem submit_capacity_rejects (o : Orchestrator) (photoRef : String)
    (params : StyleParams) (hfull : o.queue.length = o.capacity) :
    (submit o photoRef params).1 = .error .capacityError ∧
    (submit o photoRef params).2 = o ∧
    (submit o photoRef params).2.store = o.store ∧
    (submit o photoRef params).2.queue = o.queue := by
  have hle : o.capacity ≤ o.queue.length := hfull.ge
  simp [submit, hle]

/-- An orchestrator whose admission queue is at its configured capacity. -/
def demoFullOrchestrator : Orchestrator :=
  { capacity := 2, queue := [0, 1], store := [], nextId := 2 }

/-- C4 witness: submitting to the full demonstration orchestrator is
rejected with the capacity error and creates no Job record. -/
theorem submit_capacity_rejects_check :
    (submit demoFullOrchestrator "photo-9"
      { styleName := "scandinavian", intensity := none, roomHint := none }).1 =
      .error .capacityError ∧
    (submit demoFullOrchestrator "photo-9"
      { styleName := "scandinavian", intensity := none, roomHint := none }).2 =
      demoFullOrchestrator :=
  ⟨(submit_capacity_rejects demoFullOrchestrator "photo-9"
      { styleName := "scandinavian", intensity := none, roomHint := none } rfl).1,
   (submit_capacity_rejects demoFullOrchestrator "photo-9"
      { styleName := "scandinavian", intensity := none, roomHint := none } rfl).2.1⟩
